import Mathlib

/-
  Verification development for the ragflow news-scheduler repository.

  The repository ships a React control-surface page
  (web/src/pages/news_collector/*) and documentation of a news
  ingestion-and-synthesis pipeline (README_news_scheduler.md,
  docs/guides/news_scheduler_guide.md).  The pipeline components
  themselves (ContentFilter, AttachmentResolver, AttachmentDownloader,
  ContentProcessor, ReportGenerator, SchedulerService) are documented but
  their code is not part of the checked-in sources, so they are modelled
  here from the specification; the NewsCollector page handlers are
  embedded directly from the TypeScript source.
-/

namespace NewsScheduler

/-! ## Text utilities (case-insensitive substring occurrence) -/

/-- Boolean prefix test on character lists. -/
def isPrefixChars : List Char → List Char → Bool
  | [], _ => true
  | _ :: _, [] => false
  | a :: as, b :: bs => a == b && isPrefixChars as bs

/-- Boolean substring test: does `needle` occur inside the second list? -/
def containsChars (needle : List Char) : List Char → Bool
  | [] => needle.isEmpty
  | c :: rest => isPrefixChars needle (c :: rest) || containsChars needle rest

/-- Lower-casing of a string, character by character. -/
def lowerString (s : String) : String :=
  String.mk (s.data.map Char.toLower)

/-- Case-insensitive occurrence of keyword `kw` inside `text`. -/
def occursIn (kw text : String) : Bool :=
  containsChars (lowerString kw).data (lowerString text).data

/-! ## Data model (spec §3) -/

/-- Modelled from the spec: `SourceConfig` of §3 — per-source configuration
with include and exclude keywords; the backend source is absent from the
checked-in tree. -/
structure SourceConfig where
  name : String
  endpoint_url : String
  keywords : List String
  exclude_keywords : List String
  max_items : Nat
  enabled : Bool
deriving DecidableEq

/-- Modelled from the spec: `CandidateItem` of §3, produced by
SourceFetcher within one crawl cycle. -/
structure CandidateItem where
  source_name : String
  title : String
  url : String
  published_at : Option Int
  raw_excerpt : String
deriving DecidableEq

/-! ## ContentFilter (spec §4.2) -/

/-- The text the keyword rules are matched against: title+excerpt. -/
def itemText (it : CandidateItem) : String :=
  it.title ++ it.raw_excerpt

/-- Modelled from the spec: the keep-rule of ContentFilter (§4.2) — keep an
item iff no exclude keyword occurs case-insensitively in title+excerpt,
the keyword list is empty or some keyword occurs, and `published_at` (when
present) falls inside the freshness window `[now - lookback, now]`.  The
ContentFilter code itself is not in the checked-in tree. -/
def keepItem (src : SourceConfig) (now lookback : Int) (it : CandidateItem) : Bool :=
  src.exclude_keywords.all (fun kw => !(occursIn kw (itemText it))) &&
  (src.keywords.isEmpty || src.keywords.any (fun kw => occursIn kw (itemText it))) &&
  (match it.published_at with
   | none => true
   | some t => decide (now - lookback ≤ t) && decide (t ≤ now))

/-- Modelled from the spec: the filtering stage of
`ContentFilter.filter` (§4.2), applying the keep-rule to each candidate in
order (fingerprint deduplication is a separate, later stage). -/
def filterItems (items : List CandidateItem) (src : SourceConfig) (now lookback : Int) :
    List CandidateItem :=
  items.filter (keepItem src now lookback)

/-! ## Fingerprint and ContentProcessor / content store (spec §4.5, §3) -/

/-- Modelled from the spec: URL canonicalization for fingerprinting (§4.2)
— the query/tracking parameters are stripped. -/
def canonicalUrl (url : String) : String :=
  String.mk (url.data.takeWhile (fun c => c != '?'))

/-- Modelled from the spec: `content_fingerprint` (§4.2) — a stable value
determined by the lower-cased title and the canonicalized URL. -/
def content_fingerprint (it : CandidateItem) : String :=
  lowerString it.title ++ "|" ++ canonicalUrl it.url

/-- Modelled from the spec: `ProcessedNews` of §3, the unit persisted to
the content store; the ContentProcessor code is absent from the
checked-in tree. -/
structure ProcessedNews where
  fingerprint : String
  title : String
  summary : String
  body : String
  attachments : List String
  stored_at : Int
deriving DecidableEq

/-- Modelled from the spec: the normalization step of
`ContentProcessor.process` (§4.5) — the fingerprint is computed from the
item, and the body is truncated to `max_content_length`. -/
def processNews (it : CandidateItem) (body : String) (atts : List String)
    (max_content_length : Nat) (stored_at : Int) : ProcessedNews :=
  { fingerprint := content_fingerprint it
    title := it.title
    summary := it.raw_excerpt
    body := body.take max_content_length
    attachments := atts
    stored_at := stored_at }

/-- Number of entries of the store carrying fingerprint `fp`. -/
def countFp (store : List ProcessedNews) (fp : String) : Nat :=
  (store.filter (fun m => m.fingerprint == fp)).length

/-- Modelled from the spec: the content-store write of §4.5 and §6 — an
idempotent upsert keyed by fingerprint: a write whose fingerprint is
already present overwrites the existing entry, otherwise the entry is
appended. -/
def putNews (store : List ProcessedNews) (n : ProcessedNews) : List ProcessedNews :=
  if store.any (fun m => m.fingerprint == n.fingerprint) then
    store.map (fun m => if m.fingerprint == n.fingerprint then n else m)
  else
    store ++ [n]

/-! ## AttachmentResolver (spec §4.3) -/

/-- Signal that classified an attachment candidate. -/
inductive SourceSignal
  | extension
  | link_text
  | url_keyword
deriving DecidableEq

/-- Modelled from the spec: `AttachmentCandidate` of §3. -/
structure AttachmentCandidate where
  item_fingerprint : String
  url : String
  inferred_type : String
  source_signal : SourceSignal
deriving DecidableEq

/-- A discovered link: its URL and its anchor text. -/
structure Link where
  url : String
  text : String
deriving DecidableEq

/-- Last path segment of a URL, after stripping the query part. -/
def lastSegment (url : String) : String :=
  String.mk (((canonicalUrl url).data.reverse.takeWhile (fun c => c != '/')).reverse)

/-- File extension (lower-cased) of the URL path, when present. -/
def extOf (url : String) : Option String :=
  let seg := (lastSegment url).data
  if seg.contains '.' then
    some (String.mk ((seg.reverse.takeWhile (fun c => c != '.')).reverse.map Char.toLower))
  else none

/-- Modelled from the spec: recognition keywords looked for in the link
text (§4.3 rule 2). -/
def textRecognitionKeywords : List String :=
  ["pdf", "附件", "下载"]

/-- Modelled from the spec: recognition keywords looked for in the URL
(§4.3 rule 3). -/
def urlRecognitionKeywords : List String :=
  ["pdf", "attachment", "download"]

/-- Modelled from the spec: the type inferred from a recognition keyword —
the first configured attachment type occurring in the text, defaulting to
unknown when the type is not determinable (§4.3). -/
def inferTypeFromKeywords (attachment_types : List String) (s : String) : String :=
  match attachment_types.find? (fun t => occursIn t s) with
  | some t => lowerString t
  | none => "unknown"

/-- Modelled from the spec: rules 2-4 of the classification cascade of
`AttachmentResolver.resolve` (§4.3): link-text keyword, then URL keyword,
else not a candidate. -/
def classifyByKeywords (attachment_types : List String) (fp : String) (link : Link) :
    Option AttachmentCandidate :=
  if textRecognitionKeywords.any (fun k => occursIn k link.text) then
    some ⟨fp, link.url, inferTypeFromKeywords attachment_types link.text, SourceSignal.link_text⟩
  else if urlRecognitionKeywords.any (fun k => occursIn k link.url) then
    some ⟨fp, link.url, inferTypeFromKeywords attachment_types link.url, SourceSignal.url_keyword⟩
  else
    none

/-- Modelled from the spec: the full first-matching-rule-wins
classification cascade of §4.3 — the file-extension rule is tried first,
and only when it does not match are the link-text and URL-keyword rules
consulted.  The AttachmentResolver code is absent from the checked-in
tree. -/
def classify (attachment_types : List String) (fp : String) (link : Link) :
    Option AttachmentCandidate :=
  match extOf link.url with
  | some e =>
    if (attachment_types.map lowerString).contains e then
      some ⟨fp, link.url, e, SourceSignal.extension⟩
    else
      classifyByKeywords attachment_types fp link
  | none => classifyByKeywords attachment_types fp link

/-! ## AttachmentDownloader (spec §4.4) -/

/-- Status of an attachment record (spec §3). -/
inductive AttStatus
  | downloaded
  | skipped_size
  | skipped_type
  | failed
deriving DecidableEq

/-- Modelled from the spec: `Attachment` of §3; the retained bytes are
modelled by their count. -/
structure Attachment where
  item_fingerprint : String
  filename : String
  type : String
  size_bytes : Nat
  retained_bytes : Nat
  status : AttStatus
deriving DecidableEq

/-- Streaming loop of the downloader: consume chunks, checking the
cumulative size against the bound after each chunk; exceeding the bound
aborts the transfer, retaining nothing. -/
def downloadGo (maxSize : Nat) : List Nat → Nat → Nat × AttStatus
  | [], acc => (acc, AttStatus.downloaded)
  | c :: cs, acc =>
    if maxSize < acc + c then (0, AttStatus.skipped_size)
    else downloadGo maxSize cs (acc + c)

/-- Modelled from the spec: the per-candidate download of
`AttachmentDownloader.download` (§4.4) — size is checked incrementally
while streaming (the stream is modelled as the list of chunk sizes); once
the cumulative bytes exceed `max_attachment_size` the transfer is aborted
and the record is marked `skipped_size` with no partial bytes retained.
The AttachmentDownloader code is absent from the checked-in tree. -/
def download (cand : AttachmentCandidate) (chunks : List Nat) (maxSize : Nat) : Attachment :=
  let r := downloadGo maxSize chunks 0
  { item_fingerprint := cand.item_fingerprint
    filename := lastSegment cand.url
    type := cand.inferred_type
    size_bytes := r.1
    retained_bytes := r.1
    status := r.2 }

/-- Modelled from the spec: downloading a batch of candidates, each with
its own byte stream, under one size bound. -/
def downloadAll (maxSize : Nat) (cands : List (AttachmentCandidate × List Nat)) :
    List Attachment :=
  cands.map (fun p => download p.1 p.2 maxSize)

/-! ## ReportGenerator (spec §4.6) -/

/-- The four report sections (spec §3, §4.6). -/
inductive SectionKind
  | summary
  | key_events
  | trends
  | attachments
deriving DecidableEq

/-- A rendered section of the Brief: either an explicit empty-section
marker or the section content. -/
inductive RenderedSection
  | emptyMarker (kind : SectionKind)
  | rendered (kind : SectionKind) (content : List String)
deriving DecidableEq

/-- Errors of `ReportGenerator.generate` (spec §4.6). -/
inductive GenerationError
  | no_content
  | kb_unreachable
deriving DecidableEq

/-- Modelled from the spec: `Brief` of §3, a read-only artifact. -/
structure Brief where
  window_start : Int
  window_end : Int
  sections : List RenderedSection
deriving DecidableEq

/-- ProcessedNews entries of the store whose `stored_at` falls in the
half-open window `[ws, we)` (spec §4.6). -/
def windowEntries (store : List ProcessedNews) (ws we : Int) : List ProcessedNews :=
  store.filter (fun e => decide (ws ≤ e.stored_at) && decide (e.stored_at < we))

/-- Modelled from the spec: the deterministic per-section aggregation of
§4.6 over the window's entries (exact algorithm implementation-defined;
each section is a deterministic function of the entry list, empty when the
window holds nothing relevant). -/
def sectionData (entries : List ProcessedNews) : SectionKind → List String
  | SectionKind.summary => entries.map (fun e => e.summary)
  | SectionKind.key_events => entries.map (fun e => e.title)
  | SectionKind.trends => entries.map (fun e => lowerString e.title)
  | SectionKind.attachments => entries.foldr (fun e acc => e.attachments ++ acc) []

/-- Rendering of one requested section: an individually empty section
becomes an explicit empty-section marker, not a failure (spec §4.6). -/
def renderSection (entries : List ProcessedNews) (s : SectionKind) : RenderedSection :=
  let d := sectionData entries s
  if d.isEmpty then RenderedSection.emptyMarker s else RenderedSection.rendered s d

/-- Modelled from the spec: `ReportGenerator.generate` (§4.6) — reads the
window's entries, builds each requested section independently, fails with
`no_content` exactly when all requested sections are empty, and otherwise
renders empty sections as explicit empty-section markers.  The
ReportGenerator code is absent from the checked-in tree. -/
def generate (store : List ProcessedNews) (ws we : Int) (sections : List SectionKind) :
    Except GenerationError Brief :=
  if sections.all (fun s => (sectionData (windowEntries store ws we) s).isEmpty) then
    Except.error GenerationError.no_content
  else
    Except.ok
      { window_start := ws
        window_end := we
        sections := sections.map (renderSection (windowEntries store ws we)) }

/-! ## SchedulerService (spec §4.7) and crawl-cycle outcome (spec §7) -/

/-- Status of a JobRun (spec §3, with the pending state of §4.7). -/
inductive JStatus
  | pending
  | running
  | succeeded
  | failed
  | timed_out
deriving DecidableEq, BEq

/-- Modelled from the spec: `JobRun` of §3 (the fields the scheduler state
machine turns on). -/
structure JobRun where
  job_id : Nat
  tenant_id : Nat
  status : JStatus
deriving DecidableEq

/-- Is this job a running job of tenant `t`? -/
def isRunningFor (t : Nat) (j : JobRun) : Bool :=
  decide (j.status = JStatus.running) && decide (j.tenant_id = t)

/-- Number of running JobRuns of tenant `t`. -/
def runningCount (jobs : List JobRun) (t : Nat) : Nat :=
  (jobs.filter (isRunningFor t)).length

/-- Modelled from the spec: the SchedulerService job state machine of
§4.7 — a new job is queued as pending; the `pending→running` transition
requires the tenant's current running-job count to be below
`max_concurrent_jobs`; a running job reaches exactly one terminal state.
The SchedulerService code is absent from the checked-in tree. -/
inductive Step (max : Nat) : List JobRun → List JobRun → Prop
  | submit (jobs : List JobRun) (j : JobRun) (hp : j.status = JStatus.pending) :
      Step max jobs (jobs ++ [j])
  | start (pre post : List JobRun) (j : JobRun) (hp : j.status = JStatus.pending)
      (hcnt : runningCount (pre ++ j :: post) j.tenant_id < max) :
      Step max (pre ++ j :: post) (pre ++ { j with status := JStatus.running } :: post)
  | finish (pre post : List JobRun) (j : JobRun) (st : JStatus)
      (hr : j.status = JStatus.running)
      (hterm : st = JStatus.succeeded ∨ st = JStatus.failed ∨ st = JStatus.timed_out) :
      Step max (pre ++ j :: post) (pre ++ { j with status := st } :: post)

/-- States of the job registry reachable from the empty registry. -/
inductive Reachable (max : Nat) : List JobRun → Prop
  | init : Reachable max []
  | step {s s' : List JobRun} : Reachable max s → Step max s s' → Reachable max s'

/-- Per-source result of one crawl cycle: the number of items successfully
processed for the source, or the source's error (spec §7). -/
inductive SourceResult
  | ok (items : Nat)
  | err (e : String)
deriving DecidableEq

/-- Total number of items successfully processed across sources. -/
def totalProcessed (rs : List SourceResult) : Nat :=
  (rs.map (fun r => match r with | SourceResult.ok n => n | SourceResult.err _ => 0)).sum

/-- The per-source errors of the cycle, in order. -/
def sourceErrors (rs : List SourceResult) : List String :=
  rs.filterMap (fun r => match r with | SourceResult.ok _ => none | SourceResult.err e => some e)

/-- Modelled from the spec: the JobRun outcome of a crawl cycle (§7) —
partial success is reported as `succeeded` with the embedded list of
per-source errors; total failure is reserved for cycles where zero items
were successfully processed. -/
def crawlOutcome (rs : List SourceResult) : JStatus × List String :=
  (if 0 < totalProcessed rs then JStatus.succeeded else JStatus.failed, sourceErrors rs)

end NewsScheduler

namespace NewsCollector

/-! ## NewsCollector page (embedded from
web/src/pages/news_collector: the page component's handlers
handleAddSource, handleDeleteSource and handleFetchNews, and the
NewsCollectorService request shape). -/

/-- A news source row of the page state (`initialSources` shape). -/
structure NewsSource where
  id : Nat
  name : String
  url : String
  remark : String
deriving DecidableEq

/-- A fetch-history row of the page state (`initialHistory` shape). -/
structure HistoryEntry where
  id : Nat
  sourceName : String
  title : String
  status : String
  createdAt : String
deriving DecidableEq

/-- The component state touched by the handlers: `sources`, `history` and
`selectedDataset`. -/
structure PageState where
  sources : List NewsSource
  history : List HistoryEntry
  selectedDataset : String
deriving DecidableEq

/-- The body of the POST issued by `fetchNews` of NewsCollectorService:
`{ kb_id, source_ids }`. -/
structure FetchRequest where
  kb_id : String
  source_ids : List Nat
deriving DecidableEq

/-- Whether the awaited `fetchNews` call resolves or rejects. -/
inductive FetchResult
  | success
  | failure
deriving DecidableEq

/-- The `initialSources` mock data of the page component. -/
def initialSources : List NewsSource :=
  [⟨1, "新浪新闻", "https://news.sina.com.cn", "默认示例"⟩,
   ⟨2, "网易新闻", "https://news.163.com", ""⟩]

/-- The `initialHistory` mock data of the page component. -/
def initialHistory : List HistoryEntry :=
  [⟨1, "新浪新闻", "示例新闻1", "成功", "2024-05-01 10:00"⟩,
   ⟨2, "网易新闻", "示例新闻2", "失败", "2024-05-01 11:00"⟩]

/-- `handleAddSource`: appends one entry `{ id: Date.now(), ...data }` to
the sources list (the fresh id is a parameter of the model). -/
def handleAddSource (st : PageState) (newId : Nat) (name url remark : String) : PageState :=
  { st with sources := st.sources ++ [⟨newId, name, url, remark⟩] }

/-- `handleDeleteSource`: keeps the sources whose id differs from the
given one (`prev.filter(s => s.id !== id)`). -/
def handleDeleteSource (st : PageState) (id : Nat) : PageState :=
  { st with sources := st.sources.filter (fun s => s.id != id) }

/-- The JS expression `sources[0]?.name || '未知'`: the first source's
name, with the fallback when the list is empty or the name is the empty
string (both falsy). -/
def firstSourceName (sources : List NewsSource) : String :=
  match sources with
  | [] => "未知"
  | s :: _ => if s.name = "" then "未知" else s.name

/-- `handleFetchNews`: when no dataset is selected it warns and returns
without issuing a request; otherwise it POSTs
`{ kb_id: selectedDataset, source_ids: sources.map(s => s.id) }` and, on
success only, appends one history entry with status 成功.  The returned
option is the request issued, if any; the fresh id and the formatted
current time are parameters of the model. -/
def handleFetchNews (st : PageState) (newId : Nat) (now : String) (result : FetchResult) :
    PageState × Option FetchRequest :=
  if st.selectedDataset = "" then (st, none)
  else
    let req : FetchRequest := ⟨st.selectedDataset, st.sources.map (fun s => s.id)⟩
    match result with
    | FetchResult.success =>
      ({ st with history :=
          st.history ++ [⟨newId, firstSourceName st.sources, "新抓取的新闻", "成功", now⟩] },
       some req)
    | FetchResult.failure => (st, some req)

end NewsCollector

namespace NewsScheduler

/-! ### AttachmentDownloader: size bound (C3) -/

/-- If the streaming loop ends in `downloaded` starting from an
accumulator within the bound, the final size is within the bound. -/
lemma downloadGo_downloaded_le (maxSize : Nat) :
    ∀ (l : List Nat) (acc : Nat), acc ≤ maxSize →
      (downloadGo maxSize l acc).2 = AttStatus.downloaded →
      (downloadGo maxSize l acc).1 ≤ maxSize := by
  intro l
  induction l with
  | nil =>
    intro acc hacc _
    simpa [downloadGo] using hacc
  | cons c cs ih =>
    intro acc hacc h
    by_cases hlt : maxSize < acc + c
    · simp only [downloadGo, if_pos hlt] at h
      exact absurd h (by decide)
    · simp only [downloadGo, if_neg hlt] at h ⊢
      exact ih (acc + c) (Nat.le_of_not_lt hlt) h

/-- Once the remaining chunks push the cumulative size past the bound,
the loop aborts with `skipped_size` and retains nothing. -/
lemma downloadGo_exceeds (maxSize : Nat) :
    ∀ (l : List Nat) (acc : Nat), acc ≤ maxSize → maxSize < acc + l.sum →
      downloadGo maxSize l acc = (0, AttStatus.skipped_size) := by
  intro l
  induction l with
  | nil =>
    intro acc hacc hsum
    rw [List.sum_nil] at hsum
    omega
  | cons c cs ih =>
    intro acc hacc hsum
    by_cases hlt : maxSize < acc + c
    · simp only [downloadGo, if_pos hlt]
    · rw [List.sum_cons] at hsum
      simp only [downloadGo, if_neg hlt]
      exact ih (acc + c) (Nat.le_of_not_lt hlt) (by omega)

/-- Per-record form of the size bound. -/
lemma download_size_le (cand : AttachmentCandidate) (chunks : List Nat) (maxSize : Nat)
    (h : (download cand chunks maxSize).status = AttStatus.downloaded) :
    (download cand chunks maxSize).size_bytes ≤ maxSize :=
  downloadGo_downloaded_le maxSize chunks 0 (Nat.zero_le _) h

/-- C3: for every Attachment record produced by the downloader,
status `downloaded` implies `size_bytes ≤ max_attachment_size`; and when
the cumulative streamed size exceeds the bound the record is marked
`skipped_size` with zero downloaded bytes retained. -/
theorem downloader_size_bound (maxSize : Nat)
    (cands : List (AttachmentCandidate × List Nat))
    (cand : AttachmentCandidate) (chunks : List Nat) :
    (∀ a ∈ downloadAll maxSize cands,
      a.status = AttStatus.downloaded → a.size_bytes ≤ maxSize) ∧
    (maxSize < chunks.sum →
      (download cand chunks maxSize).status = AttStatus.skipped_size ∧
      (download cand chunks maxSize).retained_bytes = 0) := by
  constructor
  · intro a ha hst
    rcases List.mem_map.mp ha with ⟨p, _, hpa⟩
    subst hpa
    exact download_size_le p.1 p.2 maxSize hst
  · intro h
    have hgo := downloadGo_exceeds maxSize chunks 0 (Nat.zero_le _) (by omega)
    constructor
    · show (downloadGo maxSize chunks 0).2 = AttStatus.skipped_size
      rw [hgo]
    · show (downloadGo maxSize chunks 0).1 = 0
      rw [hgo]

/-- Witness for C3, scenario C of the spec: a 60MB attachment
(62914560 bytes) under the 52428800-byte limit is skipped with zero
retained bytes. -/
theorem downloader_size_bound_witness :
    (download ⟨"fp", "https://site/doc/big.pdf", "pdf", SourceSignal.extension⟩
        [62914560] 52428800).status = AttStatus.skipped_size ∧
    (download ⟨"fp", "https://site/doc/big.pdf", "pdf", SourceSignal.extension⟩
        [62914560] 52428800).retained_bytes = 0 :=
  (downloader_size_bound 52428800 []
      ⟨"fp", "https://site/doc/big.pdf", "pdf", SourceSignal.extension⟩ [62914560]).2
    (by decide)

/-! ### Crawl-cycle outcome (C6) -/

/-- C6: a crawl cycle in which at least one item was successfully
processed is reported as `succeeded`; `failed` is reserved for cycles
with zero successfully processed items; every per-source error is
embedded in the outcome's error list either way. -/
theorem crawl_partial_success (rs : List SourceResult) :
    (0 < totalProcessed rs → (crawlOutcome rs).1 = JStatus.succeeded) ∧
    ((crawlOutcome rs).1 = JStatus.failed → totalProcessed rs = 0) ∧
    (∀ e, SourceResult.err e ∈ rs → e ∈ (crawlOutcome rs).2) := by
  refine ⟨?_, ?_, ?_⟩
  · intro h
    simp [crawlOutcome, h]
  · intro h
    by_contra hne
    have hpos : 0 < totalProcessed rs := Nat.pos_of_ne_zero hne
    simp [crawlOutcome, hpos] at h
  · intro e he
    show e ∈ sourceErrors rs
    exact List.mem_filterMap.mpr ⟨SourceResult.err e, he, rfl⟩

/-- Witness for C6, scenario E of the spec: source X times out while
source Y successfully processes three items — the cycle is `succeeded`
with X's error embedded. -/
theorem crawl_partial_success_witness :
    (crawlOutcome [SourceResult.err "timeout", SourceResult.ok 3]).1 = JStatus.succeeded ∧
    "timeout" ∈ (crawlOutcome [SourceResult.err "timeout", SourceResult.ok 3]).2 :=
  ⟨(crawl_partial_success [SourceResult.err "timeout", SourceResult.ok 3]).1 (by decide),
   (crawl_partial_success [SourceResult.err "timeout", SourceResult.ok 3]).2.2 "timeout"
     (by decide)⟩

/-! ### AttachmentResolver: extension rule first (C7) -/

/-- C7: the classification cascade tries the file-extension rule first —
for every URL whose path carries an extension in `attachment_types`
(case-insensitive), the link is classified by extension, whatever its
link text or URL keywords say. -/
theorem resolver_extension_first (attachment_types : List String) (fp : String)
    (link : Link) (e : String) (hext : extOf link.url = some e)
    (hmem : e ∈ attachment_types.map lowerString) :
    classify attachment_types fp link
      = some ⟨fp, link.url, e, SourceSignal.extension⟩ := by
  have hc : (attachment_types.map lowerString).contains e = true :=
    List.elem_iff.mpr hmem
  simp [classify, hext, hc]
  intro h
  rcases List.mem_map.mp hmem with ⟨t, ht, hte⟩
  exact absurd hte (h t ht)

/-- Witness for C7, scenario B of the spec: the link
`https://site/doc/report.pdf` is classified type `pdf` by the extension
rule, even though its link text (下载) also matches a text-recognition
keyword. -/
theorem resolver_extension_first_witness :
    classify ["pdf", "doc", "docx", "ppt", "pptx", "xls", "xlsx"] "fp"
        ⟨"https://site/doc/report.pdf", "下载"⟩
      = some ⟨"fp", "https://site/doc/report.pdf", "pdf", SourceSignal.extension⟩ :=
  resolver_extension_first ["pdf", "doc", "docx", "ppt", "pptx", "xls", "xlsx"] "fp"
    ⟨"https://site/doc/report.pdf", "下载"⟩ "pdf" (by decide) (by decide)

/-! ### ReportGenerator: no_content semantics (C5) -/

/-- C5: `generate` fails with `no_content` exactly when every requested
section is empty for the window; when it returns a Brief, each
individually empty requested section appears in it as an explicit
empty-section marker instead of failing the call. -/
theorem generator_no_content_iff (store : List ProcessedNews) (ws we : Int)
    (sections : List SectionKind) :
    (generate store ws we sections = Except.error GenerationError.no_content ↔
      ∀ s ∈ sections, sectionData (windowEntries store ws we) s = []) ∧
    (∀ br, generate store ws we sections = Except.ok br →
      ∀ s ∈ sections, sectionData (windowEntries store ws we) s = [] →
        RenderedSection.emptyMarker s ∈ br.sections) := by
  constructor
  · unfold generate
    split
    · rename_i hall
      constructor
      · intro _ s hs
        exact List.isEmpty_iff.mp (List.all_eq_true.mp hall s hs)
      · intro _
        rfl
    · rename_i hall
      constructor
      · intro h
        exact Except.noConfusion h
      · intro hforall
        exact absurd
          (List.all_eq_true.mpr (fun s hs => List.isEmpty_iff.mpr (hforall s hs))) hall
  · intro br hbr s hs hempty
    unfold generate at hbr
    split at hbr
    · exact Except.noConfusion hbr
    · injection hbr with hbr
      subst hbr
      refine List.mem_map.mpr ⟨s, hs, ?_⟩
      unfold renderSection
      rw [hempty]
      rfl

/-- Witness for C5, scenario D of the spec: a window holding zero
ProcessedNews entries (the only store entry lies outside the window) with
all four sections requested fails with `no_content`. -/
theorem generator_no_content_witness :
    generate [⟨"f", "t", "s", "b", ["a.pdf"], 100⟩] 0 10
        [SectionKind.summary, SectionKind.key_events, SectionKind.trends,
         SectionKind.attachments]
      = Except.error GenerationError.no_content :=
  (generator_no_content_iff [⟨"f", "t", "s", "b", ["a.pdf"], 100⟩] 0 10
      [SectionKind.summary, SectionKind.key_events, SectionKind.trends,
       SectionKind.attachments]).1.mpr (by decide)

/-! ### ContentFilter: keep-rule (C2) -/

/-- The freshness clause of the keep-rule, as a proposition. -/
lemma freshness_match_iff (now lookback : Int) (o : Option Int) :
    ((match o with
      | none => true
      | some t => decide (now - lookback ≤ t) && decide (t ≤ now)) = true) ↔
    (∀ t, o = some t → now - lookback ≤ t ∧ t ≤ now) := by
  cases o with
  | none => simp
  | some t => simp [Bool.and_eq_true]

/-- Characterization of the keep-rule as the conjunction of the three
clauses of §4.2. -/
lemma keepItem_iff (src : SourceConfig) (now lookback : Int) (it : CandidateItem) :
    keepItem src now lookback it = true ↔
      (∀ kw ∈ src.exclude_keywords, occursIn kw (itemText it) = false) ∧
      (src.keywords = [] ∨ ∃ kw ∈ src.keywords, occursIn kw (itemText it) = true) ∧
      (∀ t, it.published_at = some t → now - lookback ≤ t ∧ t ≤ now) := by
  unfold keepItem
  rw [Bool.and_eq_true, Bool.and_eq_true, freshness_match_iff]
  rw [Bool.or_eq_true, List.all_eq_true, List.any_eq_true, List.isEmpty_iff]
  simp only [Bool.not_eq_true']
  tauto

/-- C2: ContentFilter's keep-rule keeps an item iff no exclude keyword
occurs case-insensitively in title+excerpt, the keyword list is empty or
some keyword occurs, and `published_at` (when present) falls in the
freshness window; in particular an item containing an excluded keyword is
absent from the output even when an included keyword also matches. -/
theorem contentFilter_keep_iff (items : List CandidateItem) (src : SourceConfig)
    (now lookback : Int) (it : CandidateItem) :
    (it ∈ filterItems items src now lookback ↔
      it ∈ items ∧
      (∀ kw ∈ src.exclude_keywords, occursIn kw (itemText it) = false) ∧
      (src.keywords = [] ∨ ∃ kw ∈ src.keywords, occursIn kw (itemText it) = true) ∧
      (∀ t, it.published_at = some t → now - lookback ≤ t ∧ t ≤ now)) ∧
    (∀ kw ∈ src.exclude_keywords, occursIn kw (itemText it) = true →
      it ∉ filterItems items src now lookback) := by
  have hmem : it ∈ filterItems items src now lookback ↔
      it ∈ items ∧ keepItem src now lookback it = true := List.mem_filter
  constructor
  · rw [hmem, keepItem_iff]
  · intro kw hkw hocc hin
    have hkeep := (keepItem_iff src now lookback it).mp (hmem.mp hin).2
    have hf := hkeep.1 kw hkw
    rw [hocc] at hf
    exact Bool.noConfusion hf

/-- Witness for C2: with keywords `["ai"]` and exclude keywords
`["广告"]`, an item whose title contains AI is kept, and an item whose
title contains both AI and the excluded 广告 is rejected even though the
included keyword also matches. -/
theorem contentFilter_keep_iff_witness :
    ((⟨"s", "AI 新闻", "u", none, ""⟩ : CandidateItem)
        ∈ filterItems [⟨"s", "AI 新闻", "u", none, ""⟩]
            ⟨"n", "e", ["ai"], ["广告"], 20, true⟩ 0 24) ∧
    ((⟨"s", "AI 广告", "u2", none, ""⟩ : CandidateItem)
        ∉ filterItems [⟨"s", "AI 广告", "u2", none, ""⟩]
            ⟨"n", "e", ["ai"], ["广告"], 20, true⟩ 0 24) :=
  ⟨(contentFilter_keep_iff [⟨"s", "AI 新闻", "u", none, ""⟩]
      ⟨"n", "e", ["ai"], ["广告"], 20, true⟩ 0 24 ⟨"s", "AI 新闻", "u", none, ""⟩).1.mpr
      ⟨by decide, by decide, by decide, fun t ht => Option.noConfusion ht⟩,
   (contentFilter_keep_iff [⟨"s", "AI 广告", "u2", none, ""⟩]
      ⟨"n", "e", ["ai"], ["广告"], 20, true⟩ 0 24 ⟨"s", "AI 广告", "u2", none, ""⟩).2
      "广告" (by decide) (by decide)⟩

/-! ### ContentProcessor / content store: idempotence on fingerprint (C1) -/

/-- The fingerprint count distributes over store concatenation. -/
lemma countFp_append (a b : List ProcessedNews) (fp : String) :
    countFp (a ++ b) fp = countFp a fp + countFp b fp := by
  simp [countFp, List.filter_append]

/-- Unfolding of the fingerprint count at a cons cell. -/
lemma countFp_cons (x : ProcessedNews) (xs : List ProcessedNews) (fp : String) :
    countFp (x :: xs) fp = (if x.fingerprint == fp then 1 else 0) + countFp xs fp := by
  unfold countFp
  rw [List.filter_cons]
  split
  · simp [Nat.add_comm]
  · simp

/-- The existence test of the upsert agrees with a positive count. -/
lemma any_fp_iff (s : List ProcessedNews) (fp : String) :
    s.any (fun m => m.fingerprint == fp) = true ↔ 0 < countFp s fp := by
  rw [List.any_eq_true]
  constructor
  · rintro ⟨m, hm, hfp⟩
    exact List.length_pos_of_mem (List.mem_filter.mpr ⟨hm, hfp⟩)
  · intro h
    rcases List.exists_mem_of_length_pos h with ⟨m, hm⟩
    rcases List.mem_filter.mp hm with ⟨hs, hfp⟩
    exact ⟨m, hs, hfp⟩

/-- Overwriting every entry of the fingerprint with the new entry leaves
that fingerprint's count unchanged. -/
lemma countFp_replace_self (s : List ProcessedNews) (n : ProcessedNews) :
    countFp (s.map (fun m => if m.fingerprint == n.fingerprint then n else m)) n.fingerprint
      = countFp s n.fingerprint := by
  induction s with
  | nil => rfl
  | cons m ms ih =>
    by_cases h : (m.fingerprint == n.fingerprint) = true
    · rw [List.map_cons, if_pos h, countFp_cons, countFp_cons, ih, h]
      simp
    · rw [List.map_cons, if_neg h, countFp_cons, countFp_cons, ih]

/-- Overwriting the new entry's fingerprint does not change the count of
any other fingerprint. -/
lemma countFp_replace_other (s : List ProcessedNews) (n : ProcessedNews) (fp : String)
    (hne : fp ≠ n.fingerprint) :
    countFp (s.map (fun m => if m.fingerprint == n.fingerprint then n else m)) fp
      = countFp s fp := by
  induction s with
  | nil => rfl
  | cons m ms ih =>
    by_cases h : (m.fingerprint == n.fingerprint) = true
    · have hm : m.fingerprint = n.fingerprint := by
        exact beq_iff_eq.mp h
      have hn : (n.fingerprint == fp) = false := by
        exact beq_eq_false_iff_ne.mpr (Ne.symm hne)
      have hmf : (m.fingerprint == fp) = false := by
        rw [hm]
        exact hn
      rw [List.map_cons, if_pos h, countFp_cons, countFp_cons, ih, hn, hmf]
    · rw [List.map_cons, if_neg h, countFp_cons, countFp_cons, ih]

/-- After an upsert, the written fingerprint occurs exactly once,
provided the store held it at most once. -/
lemma putNews_countFp_self (s : List ProcessedNews) (n : ProcessedNews)
    (hle : countFp s n.fingerprint ≤ 1) :
    countFp (putNews s n) n.fingerprint = 1 := by
  unfold putNews
  split
  · rename_i h
    rw [countFp_replace_self]
    have hpos := (any_fp_iff s n.fingerprint).mp h
    omega
  · rename_i h
    rw [countFp_append]
    have h0 : countFp s n.fingerprint = 0 := by
      by_contra hne
      exact h ((any_fp_iff s n.fingerprint).mpr (Nat.pos_of_ne_zero hne))
    rw [h0, countFp_cons]
    simp [countFp]

/-- An upsert does not change the count of any other fingerprint. -/
lemma putNews_countFp_other (s : List ProcessedNews) (n : ProcessedNews) (fp : String)
    (hne : fp ≠ n.fingerprint) :
    countFp (putNews s n) fp = countFp s fp := by
  unfold putNews
  split
  · exact countFp_replace_other s n fp hne
  · rw [countFp_append, countFp_cons]
    have hn : (n.fingerprint == fp) = false := beq_eq_false_iff_ne.mpr (Ne.symm hne)
    rw [hn]
    simp [countFp]

/-- One upsert establishes the at-most-one invariant and pins the written
fingerprint's count to one. -/
lemma putNews_inv (s : List ProcessedNews) (n : ProcessedNews)
    (hinv : ∀ fp, countFp s fp ≤ 1) :
    countFp (putNews s n) n.fingerprint = 1 ∧ ∀ fp, countFp (putNews s n) fp ≤ 1 := by
  refine ⟨putNews_countFp_self s n (hinv _), ?_⟩
  intro fp
  by_cases h : fp = n.fingerprint
  · subst h
    rw [putNews_countFp_self s n (hinv _)]
  · rw [putNews_countFp_other s n fp h]
    exact hinv fp

/-- C1: processing the same CandidateItem twice — both runs compute the
same `content_fingerprint` — and writing both results to a content store
satisfying the at-most-one-per-fingerprint invariant leaves exactly one
ProcessedNews entry for that fingerprint, and preserves the invariant:
the retried write overwrites or is a no-op, never a duplicate. -/
theorem processor_idempotent (s : List ProcessedNews) (it : CandidateItem)
    (b₁ b₂ : String) (atts₁ atts₂ : List String) (len : Nat) (t₁ t₂ : Int)
    (hinv : ∀ fp, countFp s fp ≤ 1) :
    countFp (putNews (putNews s (processNews it b₁ atts₁ len t₁))
        (processNews it b₂ atts₂ len t₂)) (content_fingerprint it) = 1 ∧
    (∀ fp, countFp (putNews (putNews s (processNews it b₁ atts₁ len t₁))
        (processNews it b₂ atts₂ len t₂)) fp ≤ 1) := by
  have h1 := putNews_inv s (processNews it b₁ atts₁ len t₁) hinv
  have h2 := putNews_inv (putNews s (processNews it b₁ atts₁ len t₁))
    (processNews it b₂ atts₂ len t₂) h1.2
  exact ⟨h2.1, h2.2⟩

/-- Witness for C1: writing the processed form of one concrete item twice
into the empty store leaves exactly one entry for its fingerprint. -/
theorem processor_idempotent_witness :
    countFp
        (putNews (putNews [] (processNews ⟨"s", "T", "https://u/x?a=1", none, "e"⟩ "b1" [] 100 5))
          (processNews ⟨"s", "T", "https://u/x?a=1", none, "e"⟩ "b2" [] 100 6))
        (content_fingerprint ⟨"s", "T", "https://u/x?a=1", none, "e"⟩) = 1 :=
  (processor_idempotent [] ⟨"s", "T", "https://u/x?a=1", none, "e"⟩ "b1" "b2" [] [] 100 5 6
    (fun _ => Nat.zero_le _)).1

/-! ### SchedulerService: per-tenant concurrency ceiling (C4) -/

/-- The running count distributes over registry concatenation. -/
lemma runningCount_append (a b : List JobRun) (t : Nat) :
    runningCount (a ++ b) t = runningCount a t + runningCount b t := by
  simp [runningCount, List.filter_append]

/-- Unfolding of the running count at a cons cell. -/
lemma runningCount_cons (j : JobRun) (js : List JobRun) (t : Nat) :
    runningCount (j :: js) t = (if isRunningFor t j then 1 else 0) + runningCount js t := by
  unfold runningCount
  rw [List.filter_cons]
  split
  · simp [Nat.add_comm]
  · simp

/-- A true Boolean guard makes the one-or-zero term one. -/
lemma ite_one_of_true {c : Bool} (h : c = true) :
    (if c = true then (1 : Nat) else 0) = 1 := by
  rw [h]
  rfl

/-- A false Boolean guard makes the one-or-zero term zero. -/
lemma ite_zero_of_false {c : Bool} (h : c = false) :
    (if c = true then (1 : Nat) else 0) = 0 := by
  rw [h]
  rfl

/-- A pending job counts as running for no tenant. -/
lemma isRunningFor_pending (t : Nat) (j : JobRun) (hp : j.status = JStatus.pending) :
    isRunningFor t j = false := by
  unfold isRunningFor
  rw [hp]
  rfl

/-- The job moved to running counts as running for its own tenant. -/
lemma isRunningFor_update_running (j : JobRun) :
    isRunningFor j.tenant_id { j with status := JStatus.running } = true := by
  simp [isRunningFor]

/-- A status update of a job of another tenant never counts for `t`. -/
lemma isRunningFor_update_other (t : Nat) (j : JobRun) (st : JStatus)
    (ht : j.tenant_id ≠ t) :
    isRunningFor t { j with status := st } = false := by
  unfold isRunningFor
  have h2 : decide (({ j with status := st } : JobRun).tenant_id = t) = false :=
    decide_eq_false ht
  rw [h2, Bool.and_false]

/-- A job moved to a terminal status counts as running for no tenant. -/
lemma isRunningFor_terminal (t : Nat) (j : JobRun) (st : JStatus)
    (hterm : st = JStatus.succeeded ∨ st = JStatus.failed ∨ st = JStatus.timed_out) :
    isRunningFor t { j with status := st } = false := by
  unfold isRunningFor
  rcases hterm with h | h | h <;> subst h <;> rfl

/-- Every step of the scheduler state machine preserves the per-tenant
concurrency ceiling. -/
lemma step_preserves_ceiling {max : Nat} {s s' : List JobRun} (hs : Step max s s')
    (t : Nat) (hinv : runningCount s t ≤ max) : runningCount s' t ≤ max := by
  cases hs with
  | submit jobs j hp =>
    rw [runningCount_append, runningCount_cons]
    rw [ite_zero_of_false (isRunningFor_pending t j hp)]
    have hz : runningCount ([] : List JobRun) t = 0 := rfl
    omega
  | start pre post j hp hcnt =>
    rw [runningCount_append, runningCount_cons] at hinv
    rw [runningCount_append, runningCount_cons] at hcnt
    rw [runningCount_append, runningCount_cons]
    rw [ite_zero_of_false (isRunningFor_pending t j hp)] at hinv
    rw [ite_zero_of_false (isRunningFor_pending j.tenant_id j hp)] at hcnt
    by_cases ht : j.tenant_id = t
    · subst ht
      rw [ite_one_of_true (isRunningFor_update_running j)]
      omega
    · rw [ite_zero_of_false (isRunningFor_update_other t j JStatus.running ht)]
      omega
  | finish pre post j st hr hterm =>
    rw [runningCount_append, runningCount_cons] at hinv
    rw [runningCount_append, runningCount_cons]
    rw [ite_zero_of_false (isRunningFor_terminal t j st hterm)]
    omega

/-- The ceiling holds in every state reachable from the empty registry. -/
lemma reachable_ceiling {max : Nat} {s : List JobRun} (h : Reachable max s) (t : Nat) :
    runningCount s t ≤ max := by
  induction h with
  | init => simp [runningCount]
  | step _ hstep ih => exact step_preserves_ceiling hstep t ih

/-- C4: in every reachable state of the scheduler state machine, no
tenant has more than `max_concurrent_jobs` running JobRuns — the
`pending→running` transition fires only below the limit — and no step
drops a job: every job of the pre-state persists (same job id and
tenant) in the post-state. -/
theorem scheduler_concurrency_ceiling (max : Nat) :
    (∀ s, Reachable max s → ∀ t, runningCount s t ≤ max) ∧
    (∀ s s', Step max s s' → ∀ j, j ∈ s →
      ∃ j', j' ∈ s' ∧ j'.job_id = j.job_id ∧ j'.tenant_id = j.tenant_id) := by
  constructor
  · intro s h t
    exact reachable_ceiling h t
  · intro s s' hs j hj
    cases hs with
    | submit jobs j0 hp =>
      exact ⟨j, List.mem_append_left _ hj, rfl, rfl⟩
    | start pre post j0 hp hcnt =>
      rcases List.mem_append.mp hj with h1 | h2
      · exact ⟨j, List.mem_append_left _ h1, rfl, rfl⟩
      · rcases List.mem_cons.mp h2 with h3 | h4
        · subst h3
          exact ⟨{ j with status := JStatus.running },
            List.mem_append_right _ (List.mem_cons_self _ _), rfl, rfl⟩
        · exact ⟨j, List.mem_append_right _ (List.mem_cons_of_mem _ h4), rfl, rfl⟩
    | finish pre post j0 st hr hterm =>
      rcases List.mem_append.mp hj with h1 | h2
      · exact ⟨j, List.mem_append_left _ h1, rfl, rfl⟩
      · rcases List.mem_cons.mp h2 with h3 | h4
        · subst h3
          exact ⟨{ j with status := st },
            List.mem_append_right _ (List.mem_cons_self _ _), rfl, rfl⟩
        · exact ⟨j, List.mem_append_right _ (List.mem_cons_of_mem _ h4), rfl, rfl⟩

/-- Witness for C4: a registry reached by submitting one job and starting
it under a ceiling of one keeps tenant zero's running count within the
ceiling. -/
theorem scheduler_concurrency_ceiling_witness :
    runningCount [⟨1, 0, JStatus.running⟩] 0 ≤ 1 := by
  have hsub : Step 1 [] ([] ++ [⟨1, 0, JStatus.pending⟩]) :=
    Step.submit [] ⟨1, 0, JStatus.pending⟩ rfl
  have h1 : Reachable 1 [⟨1, 0, JStatus.pending⟩] := Reachable.step Reachable.init hsub
  have hstart : Step 1 ([] ++ (⟨1, 0, JStatus.pending⟩ : JobRun) :: [])
      ([] ++ ({ (⟨1, 0, JStatus.pending⟩ : JobRun) with status := JStatus.running }) :: []) :=
    Step.start [] [] ⟨1, 0, JStatus.pending⟩ rfl (by decide)
  have h2 : Reachable 1 [⟨1, 0, JStatus.running⟩] := Reachable.step h1 hstart
  exact (scheduler_concurrency_ceiling 1).1 _ h2 0

end NewsScheduler

namespace NewsCollector

/-- C10: the source-list operations of the NewsCollector page only touch
the entry they name — handleAddSource appends one new entry, leaving the
existing entries unchanged and in order (and the other state fields
untouched); handleDeleteSource removes exactly the entries whose id
equals the given id, preserving the remaining entries and their relative
order (and the other state fields untouched). -/
theorem sourceOps_frame (st : PageState) (newId : Nat) (name url remark : String) (id : Nat) :
    ((handleAddSource st newId name url remark).sources
        = st.sources ++ [⟨newId, name, url, remark⟩]) ∧
    ((handleAddSource st newId name url remark).history = st.history) ∧
    ((handleAddSource st newId name url remark).selectedDataset = st.selectedDataset) ∧
    (∀ s, s ∈ (handleDeleteSource st id).sources ↔ s ∈ st.sources ∧ s.id ≠ id) ∧
    List.Sublist (handleDeleteSource st id).sources st.sources ∧
    ((handleDeleteSource st id).history = st.history) ∧
    ((handleDeleteSource st id).selectedDataset = st.selectedDataset) := by
  refine ⟨rfl, rfl, rfl, ?_, ?_, rfl, rfl⟩
  · intro s
    simp [handleDeleteSource, List.mem_filter, bne_iff_ne]
  · exact List.filter_sublist _

/-- Witness for C10: deleting id 1 from the initial sources keeps the
entry with id 2. -/
theorem sourceOps_frame_witness :
    (⟨2, "网易新闻", "https://news.163.com", ""⟩ : NewsSource)
      ∈ (handleDeleteSource ⟨initialSources, initialHistory, ""⟩ 1).sources :=
  ((sourceOps_frame ⟨initialSources, initialHistory, ""⟩ 3 "a" "b" "c" 1).2.2.2.1 _).mpr
    ⟨by decide, by decide⟩

/-- C9: triggering the fetch-news action leaves the history list
unchanged unless the fetch succeeds — with no dataset selected the
handler returns without issuing any request; when the request rejects no
history entry is added; on success exactly one new entry with status 成功
is appended to the end of the history list. -/
theorem handleFetchNews_history_spec (st : PageState) (newId : Nat) (now : String)
    (r : FetchResult) :
    (st.selectedDataset = "" → handleFetchNews st newId now r = (st, none)) ∧
    (r = FetchResult.failure → (handleFetchNews st newId now r).1.history = st.history) ∧
    (st.selectedDataset ≠ "" → r = FetchResult.success →
      (handleFetchNews st newId now r).1.history
        = st.history
          ++ [⟨newId, firstSourceName st.sources, "新抓取的新闻", "成功", now⟩]) := by
  refine ⟨?_, ?_, ?_⟩
  · intro h
    simp [handleFetchNews, h]
  · intro h
    subst h
    unfold handleFetchNews
    split
    · rfl
    · rfl
  · intro h hr
    subst hr
    simp [handleFetchNews, h]

/-- Witness for C9: the three cases at the page's initial data — no
dataset selected, a rejected request, and a successful request. -/
theorem handleFetchNews_history_witness :
    (handleFetchNews ⟨initialSources, initialHistory, ""⟩ 3 "t" FetchResult.success
        = (⟨initialSources, initialHistory, ""⟩, none)) ∧
    ((handleFetchNews ⟨initialSources, initialHistory, "kb1"⟩ 3 "t" FetchResult.failure).1.history
        = initialHistory) ∧
    ((handleFetchNews ⟨initialSources, initialHistory, "kb1"⟩ 3 "t" FetchResult.success).1.history
        = initialHistory ++ [⟨3, "新浪新闻", "新抓取的新闻", "成功", "t"⟩]) := by
  refine ⟨?_, ?_, ?_⟩
  · exact (handleFetchNews_history_spec _ 3 "t" FetchResult.success).1 rfl
  · exact (handleFetchNews_history_spec _ 3 "t" FetchResult.failure).2.1 rfl
  · have h := (handleFetchNews_history_spec ⟨initialSources, initialHistory, "kb1"⟩ 3 "t"
      FetchResult.success).2.2 (by decide) rfl
    rw [h]
    rfl

/-- C8 counterexample: on the page's initial sources with a selected
dataset, the fetch invocation issued by handleFetchNews carries
`source_ids = [1, 2]` — the identifiers of every configured source, not a
single source name. -/
theorem fetchNews_request_counterexample :
    ((handleFetchNews ⟨initialSources, initialHistory, "kb1"⟩ 3 "t" FetchResult.success).2
        = some ⟨"kb1", [1, 2]⟩) ∧
    ((handleFetchNews ⟨initialSources, initialHistory, "kb1"⟩ 3 "t"
        FetchResult.success).2.map (fun r => r.source_ids.length) ≠ some 1) := by
  decide

/-- C8 amended: whenever a dataset is selected, the request issued by the
page's crawl invocation is `{ kb_id := selectedDataset, source_ids :=
sources.map id }` — it carries the identifiers of every configured
source, not a single source name. -/
theorem fetchNews_request_all_sources (st : PageState) (newId : Nat) (now : String)
    (r : FetchResult) (h : st.selectedDataset ≠ "") :
    (handleFetchNews st newId now r).2
      = some ⟨st.selectedDataset, st.sources.map (fun s => s.id)⟩ := by
  unfold handleFetchNews
  rw [if_neg h]
  cases r
  · rfl
  · rfl

/-- Witness for C8's amended claim at the page's initial data. -/
theorem fetchNews_request_all_sources_witness :
    (handleFetchNews ⟨initialSources, initialHistory, "kb1"⟩ 3 "t" FetchResult.failure).2
      = some ⟨"kb1", [1, 2]⟩ := by
  have h := fetchNews_request_all_sources ⟨initialSources, initialHistory, "kb1"⟩ 3 "t"
    FetchResult.failure (by decide)
  rw [h]
  rfl

end NewsCollector
